import Mathlib

/-!
# Verification of the `petals` bloom-filter shard index

A shallow embedding, in Lean 4, of the parts of the `petals` package that the
specification talks about:

* `petals/bloom.py` — the `TrieNode`/`Trie` path index, `execute_query_v2`,
  `load_file_paths` and `DataBlooming.index_file`;
* `petals/core.py` — the per-connection accumulate/dispatch loop of
  `PetalsServer.handle_echo`;
* `petals/utils.py` — `ensure_json_output` and `parse_message`.

Python values that can appear in a dataframe cell, a query, or a filter
artifact are modelled by `PyVal`; exceptions by `PyErr` together with
`Except`.  External libraries are modelled by their contracts:
`pybloom_live.BloomFilter` as the list of inserted strings (no false
negatives; the false-positive side is irrelevant to every claim below),
`pickle` round-trips as an association list from artifact path to
`FilterData`, and the `fnmatch`/`os.path` helpers are re-implemented
faithfully (POSIX `os.path.dirname`, character-level `'/'.join` on strings,
shell-glob matching with the platform `normcase` left as a parameter).
-/

/-- A Python scalar as it occurs in dataframe columns, queries and filter
artifacts: either a string or an integer (the numeric case of the code). -/
inductive PyVal where
  | pyStr (s : String)
  | pyInt (n : Int)
deriving DecidableEq, Repr

/-- The Python exceptions relevant to the embedded code paths. -/
inductive PyErr where
  | typeError
  | attributeError
  | parseError
  | jsonDecodeError
deriving DecidableEq, Repr

/-- Python `str(item)`: identity on strings, decimal rendering of ints. -/
def strPy : PyVal → String
  | .pyStr s => s
  | .pyInt n => toString n

/-- Python `a <= b`: defined within one type, a `TypeError` across types
(Python 3 semantics: `0 <= "x"` raises). -/
def pyLe : PyVal → PyVal → Except PyErr Bool
  | .pyInt a, .pyInt b => .ok (decide (a ≤ b))
  | .pyStr a, .pyStr b => .ok (decide (a ≤ b))
  | _, _ => .error .typeError

/-- Python chained comparison `lo <= v <= hi`: evaluates `lo <= v` first and
short-circuits on `False`, so the second comparison only runs (and can only
raise) when the first succeeded with `True`. -/
def pyChainLe (lo v hi : PyVal) : Except PyErr Bool := do
  let b ← pyLe lo v
  if b then pyLe v hi else pure false

/-- The unpickled content of one filter artifact, from
`DataBlooming.index_file`: a dict with `type = bloom` carrying the filter, or
`type = range` carrying `min`/`max`.  `pybloom_live.BloomFilter` is modelled
by the list of strings inserted by `bloom.add(str(item))`. -/
inductive FilterData where
  | bloom (inserted : List String)
  | range (lo hi : PyVal)
deriving DecidableEq, Repr

/-- Membership probe `value in filter_data['filter']` on the modelled bloom
filter: a string probe reports (at least) every inserted string; a non-string
probe hashes differently from any inserted `str(item)` and is modelled as a
miss. -/
def bloomContains (v : PyVal) (inserted : List String) : Bool :=
  match v with
  | .pyStr s => inserted.contains s
  | .pyInt _ => false

/-- Strip trailing `/` characters (the `rstrip('/')` step of
`posixpath.dirname`). -/
def rstripSlash (cs : List Char) : List Char :=
  ((cs.reverse).dropWhile (fun c => c = '/')).reverse

/-- `posixpath.dirname` on the character list: take everything up to and
including the last `/`, then strip trailing slashes unless the head consists
only of slashes; no `/` at all gives the empty string. -/
def dirnameL (cs : List Char) : List Char :=
  match (cs.reverse).findIdx? (fun c => c = '/') with
  | none => []
  | some k =>
      let i := cs.length - k
      let head := cs.take i
      if head ≠ [] ∧ ¬ head.all (fun c => c = '/') then rstripSlash head else head

/-- `os.path.dirname` (POSIX) on strings. -/
def dirname (p : String) : String :=
  String.mk (dirnameL p.data)

/-- `'/'.join(parts)` for a list of strings. -/
def joinSlash (parts : List String) : String :=
  String.intercalate "/" parts

/-- `'/'.join(s)` when `s` is itself a string: Python then iterates the
characters of `s`, so every character gets separated by `/`. -/
def joinChars (s : String) : String :=
  String.intercalate "/" (s.data.map (fun c => String.mk [c]))

/-- The expression `os.path.dirname('/'.join(path))` from
`execute_query_v2`, where `path` is the string already produced by
`Trie._dfs_search` — the join therefore runs over characters. -/
def mangleShardId (path : String) : String :=
  dirname (joinChars path)

/-- Python `str.lower()` (ASCII case folding suffices for column names). -/
def strLower (s : String) : String :=
  String.mk (s.data.map Char.toLower)

/-- Python `str.split(sep)` for a one-character separator: `""` yields
`[""]`, consecutive separators yield empty fields. -/
def splitOnCharL (sep : Char) : List Char → List (List Char)
  | [] => [[]]
  | c :: rest =>
      let r := splitOnCharL sep rest
      if c = sep then [] :: r
      else
        match r with
        | h :: t => (c :: h) :: t
        | [] => [[c]]

/-- `s.split(sep)` on strings. -/
def splitOnChar (sep : Char) (s : String) : List String :=
  (splitOnCharL sep s.data).map String.mk

/-- String prefix test (via the character lists, so that the kernel can
evaluate it). -/
def strIsPrefixOf (a b : String) : Bool :=
  a.data.isPrefixOf b.data

/-- String suffix test `s.endswith(suffix)`. -/
def strEndsWith (s suffix : String) : Bool :=
  suffix.data.reverse.isPrefixOf s.data.reverse

/-- Scan for the `]` that closes a bracket expression, returning the content
before it and the remainder after it (`fnmatch.translate` finds the first `]`
after the optional leading `!`/literal `]`). -/
def findClose : List Char → Option (List Char × List Char)
  | [] => none
  | ']' :: r => some ([], r)
  | c :: r => (findClose r).map (fun p => (c :: p.1, p.2))

/-- The body of a bracket expression: a `]` in the first content position is
a literal member, as in `fnmatch.translate`. -/
def scanClassBody (ps : List Char) : Option (List Char × List Char) :=
  match ps with
  | ']' :: r => (findClose r).map (fun p => (']' :: p.1, p.2))
  | _ => findClose ps

/-- Split a bracket expression after the opening `[`: optional negation `!`,
the class body, and the rest of the pattern; `none` when no closing `]`
exists (the `[` is then a literal character). -/
def splitBracket (ps : List Char) : Option (Bool × List Char × List Char) :=
  match ps with
  | '!' :: r => (scanClassBody r).map (fun p => (true, p.1, p.2))
  | _ => (scanClassBody ps).map (fun p => (false, p.1, p.2))

/-- Membership in a bracket-class body, with `a-b` ranges; a `-` without a
right endpoint is literal. -/
def memClass : List Char → Char → Bool
  | [], _ => false
  | a :: '-' :: b :: rest, c => (decide (a ≤ c) && decide (c ≤ b)) || memClass rest c
  | a :: rest, c => (a = c) || memClass rest c

/-- Shell-glob matching of a pattern against a name, as `fnmatch.translate`
defines it: `*` matches any run of characters, `?` one character, `[...]` a
bracket class, everything else literally; the whole name must be consumed.
The recursion is driven by a fuel counter so that the kernel can evaluate
it; every step shortens `pat` or `name`, so `pat.length + name.length + 1`
fuel always suffices. -/
def globMatchF : Nat → List Char → List Char → Bool
  | 0, _, _ => false
  | fuel + 1, pat, name =>
      match pat with
      | [] => name.isEmpty
      | '*' :: ps =>
          globMatchF fuel ps name ||
            (match name with
             | [] => false
             | _ :: ns => globMatchF fuel ('*' :: ps) ns)
      | '?' :: ps =>
          (match name with
           | [] => false
           | _ :: ns => globMatchF fuel ps ns)
      | '[' :: ps =>
          (match splitBracket ps with
           | some (neg, content, rest) =>
               (match name with
                | [] => false
                | c :: ns =>
                    (if neg then !(memClass content c) else memClass content c) &&
                      globMatchF fuel rest ns)
           | none =>
               (match name with
                | [] => false
                | c :: ns => (c = '[') && globMatchF fuel ps ns))
      | p :: ps =>
          (match name with
           | [] => false
           | c :: ns => (c = p) && globMatchF fuel ps ns)

/-- Glob matching with sufficient fuel. -/
def globMatch (pat name : List Char) : Bool :=
  globMatchF (pat.length + name.length + 1) pat name

/-- `fnmatch.fnmatch(name, pat)`: both sides are first normalised with the
platform's `os.path.normcase` (the identity on POSIX, lower-casing on
Windows), then glob-matched. -/
def fnmatchF (normcase : String → String) (name pat : String) : Bool :=
  globMatch (normcase pat).data (normcase name).data

/-- `TrieNode.__init__`: a children dict (an insertion-ordered association
list, looked up by key), the `end_of_file` flag, the lazily/eagerly populated
`bloom_filter` slot and the stored `file_path`. -/
inductive TrieNode where
  | mk (children : List (String × TrieNode)) (end_of_file : Bool)
       (bloom_filter : Option FilterData) (file_path : Option String)

/-- The children dict of a node. -/
def TrieNode.children : TrieNode → List (String × TrieNode)
  | .mk ch _ _ _ => ch

/-- The `end_of_file` flag of a node. -/
def TrieNode.end_of_file : TrieNode → Bool
  | .mk _ e _ _ => e

/-- The in-memory artifact slot of a node. -/
def TrieNode.bloom_filter : TrieNode → Option FilterData
  | .mk _ _ bf _ => bf

/-- The stored artifact location of a node. -/
def TrieNode.file_path : TrieNode → Option String
  | .mk _ _ _ f => f

/-- A fresh root node, as in `Trie.__init__`. -/
def emptyTrie : TrieNode := .mk [] false none none

/-- Dict lookup `part in node.children` / `node.children[part]`. -/
def lookupChild (p : String) : List (String × TrieNode) → Option TrieNode
  | [] => none
  | (k, v) :: r => if k = p then some v else lookupChild p r

/-- Dict update `node.children[part] = n` for a key already present: the
value changes, the key keeps its position. -/
def replaceChild (p : String) (n : TrieNode) : List (String × TrieNode) → List (String × TrieNode)
  | [] => []
  | (k, v) :: r => if k = p then (k, n) :: r else (k, v) :: replaceChild p n r

/-- Python truthiness of the `file_path` argument (`if file_path:`): `None`
and the empty string are falsy. -/
def pyTruthy : Option String → Bool
  | none => false
  | some s => !s.isEmpty

/-- `Trie.insert(path, file_path)` from `bloom.py:175-197`, with
`Trie.load_bloom_filter` modelled by `loader` (the pickle store): walk the
path creating missing nodes as `TrieNode(file_path)` — note the whole
insert's `file_path` is stamped on every created intermediate node — then
mark the terminal node, and, when `file_path` is truthy, overwrite its
`file_path` and eagerly load the artifact into `bloom_filter`. -/
def Trie.insert (loader : String → Option FilterData) :
    List String → TrieNode → Option String → TrieNode
  | [], node, fp =>
      match node with
      | .mk ch _ bf f0 =>
          if pyTruthy fp then .mk ch true (Option.bind fp loader) fp
          else .mk ch true bf f0
  | p :: rest, node, fp =>
      match node with
      | .mk ch e bf f0 =>
          match lookupChild p ch with
          | some c => .mk (replaceChild p (Trie.insert loader rest c fp) ch) e bf f0
          | none => .mk (ch ++ [(p, Trie.insert loader rest (.mk [] false none fp) fp)]) e bf f0

/-- A sequence of inserts in list order (`os.walk` order in
`load_file_paths`). -/
def Trie.insertAll (loader : String → Option FilterData) (t : TrieNode)
    (l : List (List String × Option String)) : TrieNode :=
  l.foldl (fun acc pr => Trie.insert loader pr.1 acc pr.2) t

/-- The observable content of the trie at a node path: `none` when no node
sits at that path, otherwise the node's `(end_of_file, file_path,
bloom_filter)` triple.  Two tries are structurally equal (Python `dict`
equality ignores key order) exactly when `nodeAt` agrees at every path. -/
def Trie.nodeAt : TrieNode → List String → Option (Bool × Option String × Option FilterData)
  | .mk _ e bf f0, [] => some (e, f0, bf)
  | .mk ch _ _ _, p :: rest =>
      match lookupChild p ch with
      | none => none
      | some c => Trie.nodeAt c rest

/-- The filter handed to the caller for a terminal node hit: the cached
`bloom_filter` if populated, else the result of re-running
`load_bloom_filter(node.file_path)` (which returns `None` on any failure,
including a `None` path). -/
def resolveFilter (loader : String → Option FilterData) (node : TrieNode) : Option FilterData :=
  match node.bloom_filter with
  | some f => some f
  | none =>
      match node.file_path with
      | some s => loader s
      | none => none

/-- `Trie._dfs_search` from `bloom.py:220-246`: at the end of the pattern a
terminal node emits `(os.path.dirname('/'.join(current_path)), filter)`;
otherwise each child whose segment fnmatches the pattern segment is entered
in children-dict order. -/
def Trie.searchAux (loader : String → Option FilterData) (normcase : String → String) :
    List String → TrieNode → List String → List (String × Option FilterData)
  | [], node, current_path =>
      if node.end_of_file then
        [(dirname (joinSlash current_path), resolveFilter loader node)]
      else []
  | pat :: rest, node, current_path =>
      node.children.flatMap (fun pc =>
        if fnmatchF normcase pc.1 pat then
          Trie.searchAux loader normcase rest pc.2 (current_path ++ [pc.1])
        else [])

/-- `Trie.search(path)`. -/
def Trie.search (loader : String → Option FilterData) (normcase : String → String)
    (t : TrieNode) (path : List String) : List (String × Option FilterData) :=
  Trie.searchAux loader normcase path t []

/-- The pickle store: artifact path to unpickled `FilterData`. -/
def lookupStore : List (String × FilterData) → String → Option FilterData
  | [], _ => none
  | (k, v) :: r, p => if k = p then some v else lookupStore r p

/-- The pandas dtypes distinguished by `index_file`: the tuple
`(float, int, 'datetime64[ns]')` versus everything else (object/string). -/
inductive PdDtype where
  | objectD
  | int64
  | float64
  | datetime64
deriving DecidableEq, Repr

/-- `df[column].dtype in (float, int, 'datetime64[ns]')`. -/
def isRangeDtype : PdDtype → Bool
  | .objectD => false
  | _ => true

/-- One dataframe column as `index_file` consumes it. -/
structure DfColumn where
  name : String
  dtype : PdDtype
  values : List PyVal

/-- `len(df[column].unique())`. -/
def uniqueCount (vs : List PyVal) : Nat := vs.dedup.length

/-- Pointwise minimum used by `df[column].min()`; a pandas column on the
range branch is homogeneous (numeric or string), so the heterogeneous case
never occurs there. -/
def pyMinV : PyVal → PyVal → PyVal
  | .pyInt a, .pyInt b => .pyInt (min a b)
  | .pyStr a, .pyStr b => .pyStr (min a b)
  | a, _ => a

/-- Pointwise maximum used by `df[column].max()`. -/
def pyMaxV : PyVal → PyVal → PyVal
  | .pyInt a, .pyInt b => .pyInt (max a b)
  | .pyStr a, .pyStr b => .pyStr (max a b)
  | a, _ => a

/-- `df[column].min()`.  The empty case is unreachable on the range branch
(it requires more than `threshold ≥ 0` distinct values). -/
def colMin (vs : List PyVal) : PyVal :=
  match vs with
  | [] => .pyInt 0
  | v :: rest => rest.foldl pyMinV v

/-- `df[column].max()`. -/
def colMax (vs : List PyVal) : PyVal :=
  match vs with
  | [] => .pyInt 0
  | v :: rest => rest.foldl pyMaxV v

/-- `DataBlooming.index_file` from `bloom.py:472-506`: per column, a range
filter when the dtype is numeric/datetime and the distinct count exceeds
`range_filter_threshold`, else a Bloom filter fed `str(item)` for every
item; the artifact is written to
`os.path.join(bloom_path, column.lower() + ".pickle")`. -/
def index_file (threshold : Nat) (columns : List DfColumn) (bloom_path : String) :
    List (String × FilterData) :=
  columns.map (fun column =>
    let fd :=
      if isRangeDtype column.dtype && decide (uniqueCount column.values > threshold) then
        FilterData.range (colMin column.values) (colMax column.values)
      else
        FilterData.bloom (column.values.map strPy)
    (bloom_path ++ "/" ++ strLower column.name ++ ".pickle", fd))

/-- `os.path.basename` (POSIX). -/
def basenameP (p : String) : String :=
  String.mk (((p.data.reverse).takeWhile (fun c => c ≠ '/')).reverse)

/-- `DataBlooming._create_bloom_path`:
`os.path.join(output_dir, os.path.basename(file_path).split(".")[0])`. -/
def create_bloom_path (output_dir file_path : String) : String :=
  output_dir ++ "/" ++ ((splitOnChar '.' (basenameP file_path)).headD "")

/-- `DataBlooming.index_files` over a directory of parquet shards, each
given as its file path plus the dataframe columns read from it. -/
def index_files (threshold : Nat) (output_dir : String)
    (shards : List (String × List DfColumn)) : List (String × FilterData) :=
  shards.flatMap (fun sh => index_file threshold sh.2 (create_bloom_path output_dir sh.1))

/-- `os.path.relpath(full, root)` for an artifact that lives under `root`. -/
def relPath (root full : String) : String :=
  if strIsPrefixOf (root ++ "/") full then full.drop (root.length + 1) else full

/-- `load_file_paths` from `bloom.py:338-366` (and
`PetalsServer.load_bloom_filters`): walk the store of `.pickle` artifacts
and insert `[bloom_source] + relpath(full, root).split(sep)` with the full
path as artifact location; `Trie.load_bloom_filter` reads from the same
store. -/
def load_file_paths (bloom_source root_directory : String)
    (store : List (String × FilterData)) : TrieNode :=
  Trie.insertAll (lookupStore store) emptyTrie
    (store.map (fun pr => (bloom_source :: splitOnChar '/' (relPath root_directory pr.1), some pr.1)))

/-- The JSON-shaped query tree: a `(column, value)` leaf or a
`(condition, rules)` internal node. -/
inductive Query where
  | leaf (column : String) (value : PyVal)
  | node (condition : String) (rules : List Query)

/-- The pattern built for a leaf in `execute_query_v2`
(`bloom.py:315`): `[source, files, column + "*.pickle"]`. -/
def leafPattern (source files column : String) : List String :=
  [source, files, column ++ "*.pickle"]

mutual

/-- `execute_query_v2` from `bloom.py:270-335`.  A leaf searches the trie
with `leafPattern`, then for every `(path, filter_data)` hit adds
`os.path.dirname('/'.join(path))` — with `path` a string, hence
`mangleShardId` — when the bloom filter contains the value or when
`min <= value <= max` holds on a range filter (a comparison that can raise
`TypeError`).  An internal node evaluates `rules[0]` and then folds the
remaining rules with intersection for `AND`, union for `OR`, no update for
any other condition. -/
def execute_query_v2 (loader : String → Option FilterData) (normcase : String → String)
    (trie : TrieNode) (source files : String) : Query → Except PyErr (Finset String)
  | .leaf column value => do
      let bloom_filters := Trie.search loader normcase trie (leafPattern source files column)
      bloom_filters.foldlM (fun acc pr =>
        match pr.2 with
        | none => pure acc
        | some (.bloom inserted) =>
            pure (if bloomContains value inserted then insert (mangleShardId pr.1) acc else acc)
        | some (.range lo hi) => do
            let b ← pyChainLe lo value hi
            pure (if b then insert (mangleShardId pr.1) acc else acc)) (∅ : Finset String)
  | .node condition rules =>
      match rules with
      | [] => pure (∅ : Finset String)
      | r :: rest => do
          let s₀ ← execute_query_v2 loader normcase trie source files r
          execRules loader normcase trie source files condition s₀ rest

/-- The `for rule in rules[1:]` loop of `execute_query_v2`: each rule is
evaluated, then the accumulator is updated according to the condition. -/
def execRules (loader : String → Option FilterData) (normcase : String → String)
    (trie : TrieNode) (source files condition : String)
    (acc : Finset String) : List Query → Except PyErr (Finset String)
  | [] => pure acc
  | r :: rest => do
      let s ← execute_query_v2 loader normcase trie source files r
      execRules loader normcase trie source files condition
        (if condition = "AND" then acc ∩ s else if condition = "OR" then acc ∪ s else acc) rest

end

/-- Equality of `Except` results is decidable componentwise. -/
instance {ε α : Type} [DecidableEq ε] [DecidableEq α] : DecidableEq (Except ε α) :=
  fun a b =>
    match a, b with
    | .ok x, .ok y => if h : x = y then isTrue (by rw [h]) else isFalse (by simp [h])
    | .error e, .error f => if h : e = f then isTrue (by rw [h]) else isFalse (by simp [h])
    | .ok _, .error _ => isFalse (by simp)
    | .error _, .ok _ => isFalse (by simp)

/-- `any(buffer.endswith(f"</{message_type}>") for message_type in
self.handlers)` from `PetalsServer.handle_echo`. -/
def endsWithKnownTag (handlers : List String) (buffer : String) : Bool :=
  handlers.any (fun t => strEndsWith buffer ("</" ++ t ++ ">"))

/-- What one `await asyncio.wait_for(reader.read(100), 10)` can yield: a
chunk of bytes (empty at end-of-stream, where `read` returns `b''`
immediately) or a `TimeoutError` (only when the read actually blocked past
the timeout). -/
inductive ReadEvent where
  | chunk (data : String)
  | timedOut
deriving DecidableEq, Repr

/-- The per-connection state of the accumulate loop in
`PetalsServer.handle_echo` (`core.py:133-146`): still reading into the
buffer, done accumulating (the buffer ends with a known closing tag), or
closed without a reply (the timeout path). -/
inductive LoopState where
  | reading (buffer : String)
  | accumulated (buffer : String)
  | closedNoReply
deriving DecidableEq, Repr

/-- One iteration of the `while True` read loop: a chunk is appended to the
buffer and the closing-tag check decides whether to leave the loop; a
timeout closes the connection with no reply.  There is no case that reacts
to an empty chunk — the code has no end-of-stream check. -/
def handleEchoStep (handlers : List String) : LoopState → ReadEvent → LoopState
  | .reading b, .chunk d =>
      let b' := b ++ d
      if endsWithKnownTag handlers b' then .accumulated b' else .reading b'
  | .reading _, .timedOut => .closedNoReply
  | s, _ => s

/-- The loop state after `n` further reads on a connection whose client has
closed its end: every read completes immediately with an empty chunk. -/
def iterEOFReads (handlers : List String) (s : LoopState) : Nat → LoopState
  | 0 => s
  | n + 1 => handleEchoStep handlers (iterEOFReads handlers s n) (.chunk "")

/-- A JSON value, the shape of handler results and payloads. -/
inductive JValue where
  | jNull
  | jBool (b : Bool)
  | jNum (n : Int)
  | jStr (s : String)
  | jArr (elems : List JValue)
  | jObj (fields : List (String × JValue))

/-- `ensure_json_output` from `utils.py:8-33`, as the transformation applied
to the handler result before `json.dumps`: only a `str` result is replaced
by the dict with the single key `response`; every other value — dict or not
— is passed to `json.dumps` unchanged. -/
def ensure_json_output : JValue → JValue
  | .jStr s => .jObj [("response", .jStr s)]
  | r => r

/-- The `xml.etree.ElementTree` element produced by `ET.fromstring`: tag,
attributes, and the element text, which is `None` for an empty element such
as `<ping format="text"></ping>`. -/
structure XmlElement where
  tag : String
  attrs : List (String × String)
  text : Option String

/-- `root.get(name)`: attribute lookup. -/
def lookupAttr : List (String × String) → String → Option String
  | [], _ => none
  | (k, v) :: r, a => if k = a then some v else lookupAttr r a

/-- The payload of a parsed message: a raw/decoded string or a JSON
document. -/
inductive PayloadVal where
  | pstr (s : String)
  | pjson (v : JValue)

/-- `TCPMessage` from `utils.py:36-65`. -/
structure TCPMessage where
  cls : String
  format : Option String
  payload : PayloadVal

/-- Python `str.strip()` without arguments: remove ASCII whitespace from
both ends. -/
def pyStrip (s : String) : String :=
  let ws := fun c => c = ' ' ∨ c = '\t' ∨ c = '\n' ∨ c = '\r' ∨ c = '\x0b' ∨ c = '\x0c'
  String.mk (((s.data.dropWhile (fun c => decide (ws c))).reverse.dropWhile
    (fun c => decide (ws c))).reverse)

/-- `parse_message` from `utils.py:85-112`.  The standard-library pieces are
parameters: `fromstring` (`ET.fromstring`, failing with `ParseError`),
`jsonLoads` (`json.loads`) and `b64decode`.  After parsing, the code runs
`root.text.strip()` unconditionally — when the element text is `None` this
is `None.strip()` and raises `AttributeError` — then decodes the payload
according to the `format` attribute. -/
def parse_message (fromstring : String → Except PyErr XmlElement)
    (jsonLoads : String → Except PyErr JValue)
    (b64decode : String → Except PyErr String)
    (xml_string : String) : Except PyErr TCPMessage := do
  let root ← fromstring xml_string
  let cls := root.tag
  let message_format := lookupAttr root.attrs "format"
  let stripped ←
    match root.text with
    | none => Except.error PyErr.attributeError
    | some t => pure (pyStrip t)
  let payload ←
    if message_format = some "json" then do
      let v ← jsonLoads stripped
      pure (PayloadVal.pjson v)
    else if message_format = some "base64" then do
      let s ← b64decode stripped
      pure (PayloadVal.pstr s)
    else pure (PayloadVal.pstr stripped)
  pure ⟨cls, message_format, payload⟩

/-- What becomes of a connection after accumulation, per
`core.py:148-163`: the `try` around `parse_message` catches only
`ET.ParseError` (logged, silent close); any other exception escapes the
handler; otherwise the message is dispatched if its class is registered,
and an unregistered class falls through to the close with no reply. -/
inductive DispatchOutcome where
  | closedNoReplyParse
  | uncaught (e : PyErr)
  | replied (cls : String)
  | closedNoReplyUnknown
deriving DecidableEq, Repr

/-- The post-accumulation part of `PetalsServer.handle_echo`. -/
def dispatchBuffer (fromstring : String → Except PyErr XmlElement)
    (jsonLoads : String → Except PyErr JValue)
    (b64decode : String → Except PyErr String)
    (handlers : List String) (buffer : String) : DispatchOutcome :=
  match parse_message fromstring jsonLoads b64decode buffer with
  | .error e => if e = .parseError then .closedNoReplyParse else .uncaught e
  | .ok m => if handlers.contains m.cls then .replied m.cls else .closedNoReplyUnknown

theorem lookupChild_replace_ne (a b : String) (n : TrieNode)
    (ch : List (String × TrieNode)) (h : a ≠ b) :
    lookupChild a (replaceChild b n ch) = lookupChild a ch := by
  induction ch with
  | nil => rfl
  | cons kv rest ih =>
      obtain ⟨k, v⟩ := kv
      by_cases hk : k = b
      · subst hk
        simp [replaceChild, lookupChild, Ne.symm h]
      · by_cases hka : k = a <;> simp [replaceChild, lookupChild, hk, hka, h, ih]

theorem lookupChild_replace_eq (b : String) (n : TrieNode)
    (ch : List (String × TrieNode)) (h : (lookupChild b ch).isSome) :
    lookupChild b (replaceChild b n ch) = some n := by
  induction ch with
  | nil => simp [lookupChild] at h
  | cons kv rest ih =>
      obtain ⟨k, v⟩ := kv
      by_cases hk : k = b
      · subst hk
        simp [replaceChild, lookupChild]
      · simp [replaceChild, lookupChild, hk] at h ⊢
        exact ih h

theorem lookupChild_append_ne (a b : String) (x : TrieNode)
    (ch : List (String × TrieNode)) (h : a ≠ b) :
    lookupChild a (ch ++ [(b, x)]) = lookupChild a ch := by
  induction ch with
  | nil => simp [lookupChild, Ne.symm h]
  | cons kv rest ih =>
      obtain ⟨k, v⟩ := kv
      by_cases hk : k = a <;> simp [lookupChild, hk, ih]

theorem lookupChild_append_self (b : String) (x : TrieNode)
    (ch : List (String × TrieNode)) (h : lookupChild b ch = none) :
    lookupChild b (ch ++ [(b, x)]) = some x := by
  induction ch with
  | nil => simp [lookupChild]
  | cons kv rest ih =>
      obtain ⟨k, v⟩ := kv
      by_cases hk : k = b
      · subst hk
        simp [lookupChild] at h
      · simp [lookupChild, hk] at h ⊢
        exact ih h

/-- The observable content at the terminal path after an insert: the flag is
set; with a truthy `file_path` the location is overwritten and the artifact
eagerly loaded; otherwise the previous content (or, for a freshly created
node, the raw `file_path` with an empty artifact slot) is kept. -/
def termUpdate (old : Option (Bool × Option String × Option FilterData))
    (loader : String → Option FilterData) (fp : Option String) :
    Bool × Option String × Option FilterData :=
  if pyTruthy fp then (true, fp, Option.bind fp loader)
  else
    match old with
    | some (_, f0, b0) => (true, f0, b0)
    | none => (true, fp, none)

theorem nodeAt_mkNew (fp : Option String) (p : List String) :
    Trie.nodeAt (.mk [] false none fp) p =
      if p = [] then some (false, fp, none) else none := by
  cases p <;> simp [Trie.nodeAt, lookupChild]

theorem nodeAt_cons_lookup {ch : List (String × TrieNode)} {e : Bool}
    {bf : Option FilterData} {f0 : Option String} {p : String} {rest : List String}
    {c : TrieNode} (h : lookupChild p ch = some c) :
    Trie.nodeAt (.mk ch e bf f0) (p :: rest) = Trie.nodeAt c rest := by
  simp [Trie.nodeAt, h]

theorem nodeAt_cons_none {ch : List (String × TrieNode)} {e : Bool}
    {bf : Option FilterData} {f0 : Option String} {p : String} {rest : List String}
    (h : lookupChild p ch = none) :
    Trie.nodeAt (.mk ch e bf f0) (p :: rest) = none := by
  simp [Trie.nodeAt, h]

theorem nodeAt_insert_self (loader : String → Option FilterData)
    (q : List String) (t : TrieNode) (fp : Option String) :
    Trie.nodeAt (Trie.insert loader q t fp) q =
      some (termUpdate (Trie.nodeAt t q) loader fp) := by
  induction q generalizing t with
  | nil =>
      cases t with
      | mk ch e bf f0 =>
          by_cases hfp : pyTruthy fp <;>
            simp [Trie.insert, hfp, Trie.nodeAt, termUpdate]
  | cons b q' ih =>
      cases t with
      | mk ch e bf f0 =>
          cases hlk : lookupChild b ch with
          | some c =>
              simp only [Trie.insert, hlk]
              rw [nodeAt_cons_lookup (lookupChild_replace_eq b _ ch (by simp [hlk]))]
              rw [ih c, nodeAt_cons_lookup hlk]
          | none =>
              simp only [Trie.insert, hlk]
              rw [nodeAt_cons_lookup (lookupChild_append_self b _ ch hlk)]
              rw [ih (.mk [] false none fp), nodeAt_mkNew, nodeAt_cons_none hlk]
              by_cases hq : q' = []
              · subst hq
                by_cases hfp : pyTruthy fp <;> simp [termUpdate, hfp]
              · simp [hq]

theorem isPrefixOf_cons_cons (a b : String) (p q : List String) :
    (a :: p).isPrefixOf (b :: q) = (a == b && p.isPrefixOf q) := rfl

theorem isPrefixOf_nil_right (a : String) (p : List String) :
    (a :: p).isPrefixOf ([] : List String) = false := rfl

theorem isPrefixOf_nil_left (q : List String) :
    ([] : List String).isPrefixOf q = true := by
  cases q <;> rfl

theorem nodeAt_insert_ancestor (loader : String → Option FilterData)
    (q p : List String) (t : TrieNode) (fp : Option String)
    (hpre : p.isPrefixOf q = true) (hne : p ≠ q) :
    Trie.nodeAt (Trie.insert loader q t fp) p =
      some ((Trie.nodeAt t p).getD (false, fp, none)) := by
  induction q generalizing p t with
  | nil =>
      cases p with
      | nil => exact absurd rfl hne
      | cons a p' => simp [isPrefixOf_nil_right] at hpre
  | cons b q' ih =>
      cases t with
      | mk ch e bf f0 =>
          cases p with
          | nil =>
              cases hlk : lookupChild b ch <;>
                simp [Trie.insert, hlk, Trie.nodeAt]
          | cons a p' =>
              simp only [isPrefixOf_cons_cons, Bool.and_eq_true, beq_iff_eq] at hpre
              obtain ⟨hab, hpre'⟩ := hpre
              subst hab
              have hne' : p' ≠ q' := fun hh => hne (by rw [hh])
              cases hlk : lookupChild a ch with
              | some c =>
                  simp only [Trie.insert, hlk]
                  rw [nodeAt_cons_lookup (lookupChild_replace_eq a _ ch (by simp [hlk]))]
                  rw [ih p' c hpre' hne', nodeAt_cons_lookup hlk]
              | none =>
                  simp only [Trie.insert, hlk]
                  rw [nodeAt_cons_lookup (lookupChild_append_self a _ ch hlk)]
                  rw [ih p' (.mk [] false none fp) hpre' hne', nodeAt_mkNew,
                    nodeAt_cons_none hlk]
                  by_cases hp' : p' = [] <;> simp [hp']

theorem nodeAt_insert_other (loader : String → Option FilterData)
    (q p : List String) (t : TrieNode) (fp : Option String)
    (h : p.isPrefixOf q = false) :
    Trie.nodeAt (Trie.insert loader q t fp) p = Trie.nodeAt t p := by
  induction q generalizing p t with
  | nil =>
      cases p with
      | nil => simp [isPrefixOf_nil_left] at h
      | cons a p' =>
          cases t with
          | mk ch e bf f0 =>
              by_cases hfp : pyTruthy fp <;>
                simp [Trie.insert, hfp, Trie.nodeAt]
  | cons b q' ih =>
      cases t with
      | mk ch e bf f0 =>
          cases p with
          | nil => simp [isPrefixOf_nil_left] at h
          | cons a p' =>
              by_cases hab : a = b
              · subst hab
                have h' : p'.isPrefixOf q' = false := by
                  simpa [isPrefixOf_cons_cons] using h
                cases hlk : lookupChild a ch with
                | some c =>
                    simp only [Trie.insert, hlk]
                    rw [nodeAt_cons_lookup (lookupChild_replace_eq a _ ch (by simp [hlk]))]
                    rw [ih p' c h', nodeAt_cons_lookup hlk]
                | none =>
                    simp only [Trie.insert, hlk]
                    rw [nodeAt_cons_lookup (lookupChild_append_self a _ ch hlk)]
                    rw [ih p' (.mk [] false none fp) h', nodeAt_mkNew, nodeAt_cons_none hlk]
                    have hp' : p' ≠ [] := by
                      intro hh
                      subst hh
                      simp [isPrefixOf_nil_left] at h'
                    simp [hp']
              · cases hlk : lookupChild b ch with
                | some c =>
                    simp only [Trie.insert, hlk]
                    rw [show Trie.nodeAt (.mk (replaceChild b (Trie.insert loader q' c fp) ch) e bf f0)
                          (a :: p') =
                        (match lookupChild a (replaceChild b (Trie.insert loader q' c fp) ch) with
                         | none => none
                         | some cc => Trie.nodeAt cc p') from rfl]
                    rw [lookupChild_replace_ne a b _ ch hab]
                    rfl
                | none =>
                    simp only [Trie.insert, hlk]
                    rw [show Trie.nodeAt (.mk (ch ++ [(b, Trie.insert loader q'
                          (.mk [] false none fp) fp)]) e bf f0) (a :: p') =
                        (match lookupChild a (ch ++ [(b, Trie.insert loader q'
                          (.mk [] false none fp) fp)]) with
                         | none => none
                         | some cc => Trie.nodeAt cc p') from rfl]
                    rw [lookupChild_append_ne a b _ ch hab]
                    rfl

/-- Normalised node content: the stored artifact location of a
*non-terminal* node is erased (it records only which insertion happened to
create the node), everything else is kept. -/
def normInfo : Option (Bool × Option String × Option FilterData) →
    Option (Bool × Option String × Option FilterData)
  | none => none
  | some (e, f, b) => some (e, if e then f else none, b)

/-- Structural equality of tries up to the artifact locations recorded on
non-terminal nodes. -/
def normEq (t₁ t₂ : TrieNode) : Prop :=
  ∀ p : List String, normInfo (Trie.nodeAt t₁ p) = normInfo (Trie.nodeAt t₂ p)

theorem normEq_insert {t₁ t₂ : TrieNode} (loader : String → Option FilterData)
    (q : List String) (fp : Option String) (hfp : pyTruthy fp = true)
    (h : normEq t₁ t₂) :
    normEq (Trie.insert loader q t₁ fp) (Trie.insert loader q t₂ fp) := by
  intro p
  by_cases hpq : p = q
  · subst hpq
    rw [nodeAt_insert_self, nodeAt_insert_self]
    simp [termUpdate, hfp, normInfo]
  · cases hpre : p.isPrefixOf q with
    | false =>
        rw [nodeAt_insert_other loader q p t₁ fp hpre,
            nodeAt_insert_other loader q p t₂ fp hpre]
        exact h p
    | true =>
        rw [nodeAt_insert_ancestor loader q p t₁ fp hpre hpq,
            nodeAt_insert_ancestor loader q p t₂ fp hpre hpq]
        have hp := h p
        cases h₁ : Trie.nodeAt t₁ p with
        | none =>
            cases h₂ : Trie.nodeAt t₂ p with
            | none => rfl
            | some i =>
                rw [h₁, h₂] at hp
                obtain ⟨e, f, b⟩ := i
                simp [normInfo] at hp
        | some i =>
            cases h₂ : Trie.nodeAt t₂ p with
            | none =>
                rw [h₁, h₂] at hp
                obtain ⟨e, f, b⟩ := i
                simp [normInfo] at hp
            | some j =>
                rw [h₁, h₂] at hp
                simpa using hp

theorem normEq_insert_swap (loader : String → Option FilterData)
    (a b : List String × Option String) (t : TrieNode)
    (ha : pyTruthy a.2 = true) (hb : pyTruthy b.2 = true)
    (hab : a.1 = b.1 → a.2 = b.2) :
    normEq (Trie.insert loader b.1 (Trie.insert loader a.1 t a.2) b.2)
           (Trie.insert loader a.1 (Trie.insert loader b.1 t b.2) a.2) := by
  obtain ⟨qa, fa⟩ := a
  obtain ⟨qb, fb⟩ := b
  simp only at ha hb hab
  intro p
  by_cases hpa : p = qa
  · by_cases hpb : p = qb
    · subst hpa
      subst hpb
      have hf : fa = fb := hab rfl
      subst hf
      rfl
    · subst hpa
      rw [nodeAt_insert_self loader p (Trie.insert loader qb t fb) fa]
      cases hpre : p.isPrefixOf qb with
      | true =>
          rw [nodeAt_insert_ancestor loader qb p (Trie.insert loader p t fa) fb hpre hpb,
              nodeAt_insert_self loader p t fa]
          simp [termUpdate, ha]
      | false =>
          rw [nodeAt_insert_other loader qb p (Trie.insert loader p t fa) fb hpre,
              nodeAt_insert_self loader p t fa]
          simp [termUpdate, ha]
  · by_cases hpb : p = qb
    · subst hpb
      rw [nodeAt_insert_self loader p (Trie.insert loader qa t fa) fb]
      cases hpre : p.isPrefixOf qa with
      | true =>
          rw [nodeAt_insert_ancestor loader qa p (Trie.insert loader p t fb) fa hpre hpa,
              nodeAt_insert_self loader p t fb]
          simp [termUpdate, hb]
      | false =>
          rw [nodeAt_insert_other loader qa p (Trie.insert loader p t fb) fa hpre,
              nodeAt_insert_self loader p t fb]
          simp [termUpdate, hb]
    · cases hpra : p.isPrefixOf qa with
      | true =>
          cases hprb : p.isPrefixOf qb with
          | true =>
              rw [nodeAt_insert_ancestor loader qb p (Trie.insert loader qa t fa) fb hprb hpb,
                  nodeAt_insert_ancestor loader qa p t fa hpra hpa,
                  nodeAt_insert_ancestor loader qa p (Trie.insert loader qb t fb) fa hpra hpa,
                  nodeAt_insert_ancestor loader qb p t fb hprb hpb]
              cases hnt : Trie.nodeAt t p with
              | some i => simp
              | none => simp [normInfo]
          | false =>
              rw [nodeAt_insert_other loader qb p (Trie.insert loader qa t fa) fb hprb,
                  nodeAt_insert_ancestor loader qa p t fa hpra hpa,
                  nodeAt_insert_ancestor loader qa p (Trie.insert loader qb t fb) fa hpra hpa,
                  nodeAt_insert_other loader qb p t fb hprb]
      | false =>
          cases hprb : p.isPrefixOf qb with
          | true =>
              rw [nodeAt_insert_ancestor loader qb p (Trie.insert loader qa t fa) fb hprb hpb,
                  nodeAt_insert_other loader qa p t fa hpra,
                  nodeAt_insert_other loader qa p (Trie.insert loader qb t fb) fa hpra,
                  nodeAt_insert_ancestor loader qb p t fb hprb hpb]
          | false =>
              rw [nodeAt_insert_other loader qb p (Trie.insert loader qa t fa) fb hprb,
                  nodeAt_insert_other loader qa p t fa hpra,
                  nodeAt_insert_other loader qa p (Trie.insert loader qb t fb) fa hpra,
                  nodeAt_insert_other loader qb p t fb hprb]

theorem normEq_insertAll (loader : String → Option FilterData)
    (l : List (List String × Option String)) {t₁ t₂ : TrieNode}
    (htru : ∀ x ∈ l, pyTruthy x.2 = true) (h : normEq t₁ t₂) :
    normEq (Trie.insertAll loader t₁ l) (Trie.insertAll loader t₂ l) := by
  induction l generalizing t₁ t₂ with
  | nil => exact h
  | cons x rest ih =>
      show normEq (Trie.insertAll loader (Trie.insert loader x.1 t₁ x.2) rest)
                  (Trie.insertAll loader (Trie.insert loader x.1 t₂ x.2) rest)
      exact ih (fun y hy => htru y (List.mem_cons_of_mem _ hy))
        (normEq_insert loader x.1 x.2 (htru x (List.mem_cons_self _ _)) h)

theorem insertAll_perm_normEq (loader : String → Option FilterData)
    {l₁ l₂ : List (List String × Option String)} (hperm : l₁.Perm l₂) :
    (∀ x ∈ l₁, pyTruthy x.2 = true) →
    (∀ x ∈ l₁, ∀ y ∈ l₁, x.1 = y.1 → x.2 = y.2) →
    ∀ t, normEq (Trie.insertAll loader t l₁) (Trie.insertAll loader t l₂) := by
  induction hperm with
  | nil => intro _ _ t p; rfl
  | cons x hperm ih =>
      intro htru hfun t
      show normEq (Trie.insertAll loader (Trie.insert loader x.1 t x.2) _)
                  (Trie.insertAll loader (Trie.insert loader x.1 t x.2) _)
      exact ih (fun y hy => htru y (List.mem_cons_of_mem _ hy))
        (fun y hy z hz hyz =>
          hfun y (List.mem_cons_of_mem _ hy) z (List.mem_cons_of_mem _ hz) hyz)
        (Trie.insert loader x.1 t x.2)
  | swap x y l =>
      intro htru hfun t
      show normEq
        (Trie.insertAll loader (Trie.insert loader x.1 (Trie.insert loader y.1 t y.2) x.2) l)
        (Trie.insertAll loader (Trie.insert loader y.1 (Trie.insert loader x.1 t x.2) y.2) l)
      refine normEq_insertAll loader l
        (fun z hz => htru z (List.mem_cons_of_mem _ (List.mem_cons_of_mem _ hz))) ?_
      exact normEq_insert_swap loader y x t
        (htru y (List.mem_cons_self _ _))
        (htru x (List.mem_cons_of_mem _ (List.mem_cons_self _ _)))
        (fun h => hfun y (List.mem_cons_self _ _)
          x (List.mem_cons_of_mem _ (List.mem_cons_self _ _)) h)
  | trans h₁ h₂ ih₁ ih₂ =>
      intro htru hfun t
      intro p
      refine (ih₁ htru hfun t p).trans (ih₂ ?_ ?_ t p)
      · exact fun x hx => htru x (h₁.mem_iff.mpr hx)
      · exact fun x hx y hy hxy =>
          hfun x (h₁.mem_iff.mpr hx) y (h₁.mem_iff.mpr hy) hxy

theorem exceptBind_ok {α β : Type} (a : α) (f : α → Except PyErr β) :
    (Except.ok a >>= f : Except PyErr β) = f a := rfl

theorem exceptBind_error {α β : Type} (e : PyErr) (f : α → Except PyErr β) :
    ((Except.error e : Except PyErr α) >>= f) = Except.error e := rfl

theorem exec_node_cons (loader : String → Option FilterData) (normcase : String → String)
    (trie : TrieNode) (source files cond : String) (r₀ : Query) (rest : List Query) :
    execute_query_v2 loader normcase trie source files (.node cond (r₀ :: rest)) =
      (execute_query_v2 loader normcase trie source files r₀ >>= fun s₀ =>
        execRules loader normcase trie source files cond s₀ rest) := rfl

theorem execRules_single (loader : String → Option FilterData) (normcase : String → String)
    (trie : TrieNode) (source files cond : String) (acc : Finset String) (r : Query) :
    execRules loader normcase trie source files cond acc [r] =
      (execute_query_v2 loader normcase trie source files r >>= fun s =>
        pure (if cond = "AND" then acc ∩ s else if cond = "OR" then acc ∪ s else acc)) := rfl

theorem execRules_append (loader : String → Option FilterData) (normcase : String → String)
    (trie : TrieNode) (source files cond : String) (acc : Finset String)
    (l₁ l₂ : List Query) :
    execRules loader normcase trie source files cond acc (l₁ ++ l₂) =
      (execRules loader normcase trie source files cond acc l₁ >>= fun acc₁ =>
        execRules loader normcase trie source files cond acc₁ l₂) := by
  induction l₁ generalizing acc with
  | nil => rfl
  | cons r rest ih =>
      show (execute_query_v2 loader normcase trie source files r >>= fun s =>
          execRules loader normcase trie source files cond _ (rest ++ l₂)) = _
      cases hr : execute_query_v2 loader normcase trie source files r with
      | error e =>
          rw [exceptBind_error]
          rw [show execRules loader normcase trie source files cond acc (r :: rest) =
            (execute_query_v2 loader normcase trie source files r >>= fun s =>
              execRules loader normcase trie source files cond
                (if cond = "AND" then acc ∩ s else if cond = "OR" then acc ∪ s else acc)
                rest) from rfl]
          rw [hr, exceptBind_error, exceptBind_error]
      | ok s =>
          rw [exceptBind_ok, ih]
          rw [show execRules loader normcase trie source files cond acc (r :: rest) =
            (execute_query_v2 loader normcase trie source files r >>= fun s =>
              execRules loader normcase trie source files cond
                (if cond = "AND" then acc ∩ s else if cond = "OR" then acc ∪ s else acc)
                rest) from rfl]
          rw [hr, exceptBind_ok]

/-- A shard whose `account_status` column holds the strings `Inactive` and
`Active`: the dataframe read from `APAC_AUS_0.parquet`. -/
def colAccountStatus : DfColumn :=
  ⟨"account_status", .objectD, [.pyStr "Inactive", .pyStr "Active"]⟩

/-- The artifact store written by `index_files` (default
`range_filter_threshold = 1000`, `output_dir = "bloom"`) for that shard. -/
def storeAPAC : List (String × FilterData) :=
  index_files 1000 "bloom" [("data/APAC_AUS_0.parquet", [colAccountStatus])]

/-- The trie built from that store by `load_file_paths("bloom", "bloom")`. -/
def trieAPAC : TrieNode := load_file_paths "bloom" "bloom" storeAPAC

/-- The pickle loader over the same store. -/
def loaderAPAC : String → Option FilterData := lookupStore storeAPAC

/-- A numeric column with two distinct values, indexed with
`range_filter_threshold = 1` so that the range branch is taken. -/
def colAccountBalance : DfColumn :=
  ⟨"account_balance", .int64, [.pyInt 0, .pyInt 1000]⟩

/-- The artifact store for the numeric shard. -/
def storeBalance : List (String × FilterData) :=
  index_files 1 "bloom" [("data/BAL_0.parquet", [colAccountBalance])]

/-- The trie over the numeric shard's store. -/
def trieBalance : TrieNode := load_file_paths "bloom" "bloom" storeBalance

/-- The pickle loader over the numeric shard's store. -/
def loaderBalance : String → Option FilterData := lookupStore storeBalance

/-- **C1** (refuted — code bug).  The claim asserts no false negatives: a
value present during indexing must, after the build, make the leaf query
return a set of shard identifiers containing the shard.  On the code:
`Inactive` is indexed for shard `APAC_AUS_0`, the matching source/files
patterns are used, the bloom filter does report the value, yet the result
set is `{"b/l/o/o/m///A/P/A/C/_/A/U/S/_"}` — the double
`os.path.dirname('/'.join(path))` mangles the identifier — and does not
contain `APAC_AUS_0`. -/
theorem c1_no_false_negatives_violated :
    (PyVal.pyStr "Inactive") ∈ colAccountStatus.values ∧
    storeAPAC = [("bloom/APAC_AUS_0/account_status.pickle",
      FilterData.bloom ["Inactive", "Active"])] ∧
    execute_query_v2 loaderAPAC id trieAPAC "bloom" "APAC_AUS_*"
      (.leaf "account_status" (.pyStr "Inactive")) =
      .ok {"b/l/o/o/m///A/P/A/C/_/A/U/S/_"} ∧
    "APAC_AUS_0" ∉ ({"b/l/o/o/m///A/P/A/C/_/A/U/S/_"} : Finset String) := by
  refine ⟨by decide, by decide, by decide, by decide⟩

/-- **C2** (refuted — code bug).  The claim asserts the emitted identifier
is the `shard_id` component of the matched trie path.  The trie search
itself yields the path string `bloom/APAC_AUS_0`, but `execute_query_v2`
then applies `os.path.dirname('/'.join(path))` to that *string*, so the
emitted element is `b/l/o/o/m///A/P/A/C/_/A/U/S/_`, not `APAC_AUS_0`. -/
theorem c2_emitted_identifier_is_mangled :
    Trie.search loaderAPAC id trieAPAC (leafPattern "bloom" "APAC_AUS_*" "account_status") =
      [("bloom/APAC_AUS_0", some (FilterData.bloom ["Inactive", "Active"]))] ∧
    mangleShardId "bloom/APAC_AUS_0" = "b/l/o/o/m///A/P/A/C/_/A/U/S/_" ∧
    execute_query_v2 loaderAPAC id trieAPAC "bloom" "APAC_AUS_*"
      (.leaf "account_status" (.pyStr "Inactive")) =
      .ok {"b/l/o/o/m///A/P/A/C/_/A/U/S/_"} ∧
    "b/l/o/o/m///A/P/A/C/_/A/U/S/_" ≠ "APAC_AUS_0" := by
  refine ⟨by decide, by decide, by decide, by decide⟩

/-- **C3** (refuted — code bug).  The claim asserts a range filter first
parses the candidate string and yields `false` on parse failure, never
raising.  The code instead evaluates `filter_data['min'] <= value <=
filter_data['max']` directly: with numeric `min`/`max` and a string value
this is a Python 3 `TypeError`, which propagates out of the leaf
evaluation. -/
theorem c3_range_leaf_raises_type_error :
    storeBalance = [("bloom/BAL_0/account_balance.pickle",
      FilterData.range (.pyInt 0) (.pyInt 1000))] ∧
    execute_query_v2 loaderBalance id trieBalance "bloom" "*"
      (.leaf "account_balance" (.pyStr "1500")) = .error PyErr.typeError := by
  refine ⟨by decide, by decide⟩

/-- **C5** (counterexample).  The claim says the third pattern segment is
the column name *lower-cased* concatenated with `*.pickle`; the code
concatenates the column exactly as given, so for `Account_Status` the
segment is `Account_Status*.pickle`, not `account_status*.pickle`. -/
theorem c5_counterexample :
    (leafPattern "bloom" "APAC_AUS_*" "Account_Status").get? 2 =
      some "Account_Status*.pickle" ∧
    "Account_Status*.pickle" ≠ strLower "Account_Status" ++ "*.pickle" := by
  refine ⟨by decide, by decide⟩

/-- **C5** (amended).  The third pattern segment is the column *as given*
concatenated with `*.pickle` — no case folding is applied when the pattern
is built.  Whether a leaf whose column differs from the lower-cased on-disk
artifact name only in case still matches therefore depends on the
platform's `normcase` inside `fnmatch`: with the identity (POSIX) the leaf
misses the artifact, with lower-casing (Windows) it hits it. -/
theorem c5_amended_pattern_uses_column_verbatim :
    (∀ source files column : String,
        leafPattern source files column = [source, files, column ++ "*.pickle"]) ∧
    execute_query_v2 loaderAPAC id trieAPAC "bloom" "APAC_AUS_*"
      (.leaf "Account_Status" (.pyStr "Inactive")) = .ok ∅ ∧
    execute_query_v2 loaderAPAC strLower trieAPAC "bloom" "APAC_AUS_*"
      (.leaf "Account_Status" (.pyStr "Inactive")) =
      .ok {"b/l/o/o/m///A/P/A/C/_/A/U/S/_"} := by
  refine ⟨fun source files column => rfl, by decide, by decide⟩

/-- A pickle store with a single loadable artifact, for the insert
scenarios. -/
def loaderP : String → Option FilterData :=
  fun s => if s = "p" then some (FilterData.bloom ["x"]) else none

/-- **C6** (counterexample).  The claim says the in-memory artifact slot of
the terminal node is still unpopulated after `insert` returns.  Inserting
with a truthy artifact location loads the artifact right away: the slot
holds the unpickled filter, not `None`. -/
theorem c6_counterexample :
    Trie.nodeAt (Trie.insert loaderP ["a", "b"] emptyTrie (some "p")) ["a", "b"] =
      some (true, some "p", some (FilterData.bloom ["x"])) ∧
    (some (FilterData.bloom ["x"]) : Option FilterData) ≠ none := by
  refine ⟨by decide, by decide⟩

/-- **C6** (amended).  `insert(path, artifact_location)` walks/creates
nodes, marks the terminal node and stores the artifact location — and, for
a truthy location, *eagerly loads* the filter artifact at insert time: the
terminal node's `bloom_filter` slot holds the loader's result as soon as
`insert` returns. -/
theorem c6_amended_insert_loads_eagerly (loader : String → Option FilterData)
    (q : List String) (t : TrieNode) (fp : Option String)
    (hfp : pyTruthy fp = true) :
    Trie.nodeAt (Trie.insert loader q t fp) q =
      some (true, fp, Option.bind fp loader) := by
  rw [nodeAt_insert_self]
  simp [termUpdate, hfp]

/-- Witness for the amended C6 theorem at a concrete insert. -/
theorem c6_amended_witness :
    Trie.nodeAt (Trie.insert loaderP ["a"] emptyTrie (some "p")) ["a"] =
      some (true, some "p", some (FilterData.bloom ["x"])) := by
  have h := c6_amended_insert_loads_eagerly loaderP ["a"] emptyTrie (some "p") (by decide)
  simpa [loaderP] using h

/-- **C4** (confirmed).  For an internal node with at least one rule (the
query shape gives internal nodes ≥ 1 child), appending a rule `r` to an
`AND` node can only shrink the successfully computed result, and appending
one to an `OR` node can only grow it; the evaluation without `r` succeeds
whenever the one with `r` does. -/
theorem c4_and_or_monotone (loader : String → Option FilterData)
    (normcase : String → String) (trie : TrieNode) (source files : String)
    (rules : List Query) (r : Query) (hne : rules ≠ []) :
    (∀ S₂, execute_query_v2 loader normcase trie source files
        (.node "AND" (rules ++ [r])) = .ok S₂ →
      ∃ S₁, execute_query_v2 loader normcase trie source files
          (.node "AND" rules) = .ok S₁ ∧ S₂ ⊆ S₁) ∧
    (∀ S₂, execute_query_v2 loader normcase trie source files
        (.node "OR" (rules ++ [r])) = .ok S₂ →
      ∃ S₁, execute_query_v2 loader normcase trie source files
          (.node "OR" rules) = .ok S₁ ∧ S₁ ⊆ S₂) := by
  obtain ⟨r₀, rest, rfl⟩ : ∃ r₀ rest, rules = r₀ :: rest := by
    cases rules with
    | nil => exact absurd rfl hne
    | cons a b => exact ⟨a, b, rfl⟩
  constructor
  · intro S₂ h
    rw [show ((r₀ :: rest) ++ [r]) = r₀ :: (rest ++ [r]) from rfl,
      exec_node_cons] at h
    cases h₀ : execute_query_v2 loader normcase trie source files r₀ with
    | error e => rw [h₀, exceptBind_error] at h; exact absurd h (by simp)
    | ok s₀ =>
        rw [h₀, exceptBind_ok, execRules_append] at h
        cases h₁ : execRules loader normcase trie source files "AND" s₀ rest with
        | error e => rw [h₁, exceptBind_error] at h; exact absurd h (by simp)
        | ok acc₁ =>
            rw [h₁, exceptBind_ok, execRules_single] at h
            cases h₂ : execute_query_v2 loader normcase trie source files r with
            | error e => rw [h₂, exceptBind_error] at h; exact absurd h (by simp)
            | ok s =>
                rw [h₂, exceptBind_ok] at h
                have hS : S₂ = acc₁ ∩ s := by
                  simpa [pure, Except.pure] using h.symm
                refine ⟨acc₁, ?_, ?_⟩
                · rw [exec_node_cons, h₀, exceptBind_ok, h₁]
                · rw [hS]
                  exact Finset.inter_subset_left
  · intro S₂ h
    rw [show ((r₀ :: rest) ++ [r]) = r₀ :: (rest ++ [r]) from rfl,
      exec_node_cons] at h
    cases h₀ : execute_query_v2 loader normcase trie source files r₀ with
    | error e => rw [h₀, exceptBind_error] at h; exact absurd h (by simp)
    | ok s₀ =>
        rw [h₀, exceptBind_ok, execRules_append] at h
        cases h₁ : execRules loader normcase trie source files "OR" s₀ rest with
        | error e => rw [h₁, exceptBind_error] at h; exact absurd h (by simp)
        | ok acc₁ =>
            rw [h₁, exceptBind_ok, execRules_single] at h
            cases h₂ : execute_query_v2 loader normcase trie source files r with
            | error e => rw [h₂, exceptBind_error] at h; exact absurd h (by simp)
            | ok s =>
                rw [h₂, exceptBind_ok] at h
                have hS : S₂ = acc₁ ∪ s := by
                  simpa [pure, Except.pure] using h.symm
                refine ⟨acc₁, ?_, ?_⟩
                · rw [exec_node_cons, h₀, exceptBind_ok, h₁]
                · rw [hS]
                  exact Finset.subset_union_left

/-- Witness for C4 at a concrete query: `AND` over one empty sub-node with
the same sub-node appended, on the empty trie. -/
theorem c4_witness :
    ∃ S₁, execute_query_v2 (fun _ => none) id emptyTrie "s" "f"
        (.node "AND" [.node "AND" []]) = .ok S₁ ∧
      (∅ : Finset String) ⊆ S₁ :=
  (c4_and_or_monotone (fun _ => none) id emptyTrie "s" "f"
    [Query.node "AND" []] (Query.node "AND" []) (by simp)).1 ∅ (by decide)

/-- **C7** (counterexample).  Two inserts sharing the prefix `a`, applied in
the two possible orders, give tries that differ at node `["a"]`: the
intermediate node was created by whichever insert came first and carries
that insert's artifact location (`bloom.py:192` passes the whole insert's
`file_path` to every created node). -/
theorem c7_counterexample :
    Trie.nodeAt (Trie.insertAll (fun _ => none) emptyTrie
        [(["a", "b"], some "p1"), (["a", "c"], some "p2")]) ["a"] ≠
      Trie.nodeAt (Trie.insertAll (fun _ => none) emptyTrie
        [(["a", "c"], some "p2"), (["a", "b"], some "p1")]) ["a"] := by
  decide

/-- **C7** (amended).  For insertions with truthy artifact locations, at
most one location per path, and any permutation of the order, the resulting
tries agree at every node path on existence, `end_of_file` flag and loaded
artifact content, and on the stored artifact location of every terminal
node; only the location recorded on non-terminal nodes (erased by
`normInfo`) depends on the order. -/
theorem c7_amended_insert_order_independence (loader : String → Option FilterData)
    (l₁ l₂ : List (List String × Option String)) (hperm : l₁.Perm l₂)
    (htru : ∀ x ∈ l₁, pyTruthy x.2 = true)
    (hfun : ∀ x ∈ l₁, ∀ y ∈ l₁, x.1 = y.1 → x.2 = y.2)
    (p : List String) :
    normInfo (Trie.nodeAt (Trie.insertAll loader emptyTrie l₁) p) =
      normInfo (Trie.nodeAt (Trie.insertAll loader emptyTrie l₂) p) :=
  insertAll_perm_normEq loader hperm htru hfun emptyTrie p

/-- Witness for the amended C7 theorem on two swapped inserts. -/
theorem c7_amended_witness :
    normInfo (Trie.nodeAt (Trie.insertAll (fun _ => none) emptyTrie
        [(["a", "b"], some "p1"), (["a", "c"], some "p2")]) ["a"]) =
      normInfo (Trie.nodeAt (Trie.insertAll (fun _ => none) emptyTrie
        [(["a", "c"], some "p2"), (["a", "b"], some "p1")]) ["a"]) :=
  c7_amended_insert_order_independence (fun _ => none)
    [(["a", "b"], some "p1"), (["a", "c"], some "p2")]
    [(["a", "c"], some "p2"), (["a", "b"], some "p1")]
    (List.Perm.swap (["a", "c"], some "p2") (["a", "b"], some "p1") [])
    (by decide) (by decide) ["a"]

/-- **C8** (refuted — code bug).  The claim says a zero-byte read before a
closing tag closes the connection with no reply.  The read loop has no
end-of-stream case: an empty chunk leaves the buffer unchanged and the loop
keeps reading — after any number of empty reads the state is still
`reading`, never `closedNoReply`. -/
theorem c8_eof_chunk_does_not_close :
    ∀ n : Nat,
      iterEOFReads ["ping"] (.reading "abc") n = .reading "abc" ∧
        iterEOFReads ["ping"] (.reading "abc") n ≠ .closedNoReply := by
  have key : ∀ n : Nat, iterEOFReads ["ping"] (.reading "abc") n = .reading "abc" := by
    intro n
    induction n with
    | zero => rfl
    | succ k ih =>
        show handleEchoStep ["ping"] (iterEOFReads ["ping"] (.reading "abc") k)
          (.chunk "") = _
        rw [ih]
        decide
  intro n
  exact ⟨key n, by rw [key n]; decide⟩

/-- **C9** (counterexample).  The claim says every non-mapping result is
wrapped as `{response: value}` before serialisation.  The code wraps only
strings: a list result — exactly what the `search` handler returns — passes
through unwrapped. -/
theorem c9_counterexample :
    ensure_json_output (.jArr [.jNum 1]) = .jArr [.jNum 1] ∧
      JValue.jArr [.jNum 1] ≠ .jObj [("response", .jArr [.jNum 1])] := by
  exact ⟨rfl, fun h => JValue.noConfusion h⟩

/-- **C9** (amended).  The wrapping applied before `json.dumps` leaves any
mapping unchanged and wraps *only string* results as `{response: value}`;
every other non-mapping value (list, number, boolean, null) also passes
through unchanged. -/
theorem c9_amended_only_strings_wrapped :
    (∀ fields, ensure_json_output (.jObj fields) = .jObj fields) ∧
    (∀ s, ensure_json_output (.jStr s) = .jObj [("response", .jStr s)]) ∧
    (∀ elems, ensure_json_output (.jArr elems) = .jArr elems) ∧
    (∀ n, ensure_json_output (.jNum n) = .jNum n) ∧
    (∀ b, ensure_json_output (.jBool b) = .jBool b) ∧
    ensure_json_output .jNull = .jNull :=
  ⟨fun _ => rfl, fun _ => rfl, fun _ => rfl, fun _ => rfl, fun _ => rfl, rfl⟩

/-- **C10** (confirmed).  For a well-formed frame whose element text is
absent, `parse_message` fails with `AttributeError` (from
`root.text.strip()` on `None`), not with the XML `ParseError` the
connection handler catches — so the frame escapes the silent-close path and
the exception propagates out of the handler. -/
theorem c10_empty_text_escapes_malformed_frame_path
    (fromstring : String → Except PyErr XmlElement)
    (jsonLoads : String → Except PyErr JValue)
    (b64decode : String → Except PyErr String)
    (handlers : List String) (buffer : String) (root : XmlElement)
    (hparse : fromstring buffer = .ok root) (htext : root.text = none) :
    parse_message fromstring jsonLoads b64decode buffer = .error .attributeError ∧
      dispatchBuffer fromstring jsonLoads b64decode handlers buffer =
        .uncaught .attributeError := by
  have hp : parse_message fromstring jsonLoads b64decode buffer =
      .error .attributeError := by
    simp [parse_message, hparse, htext, exceptBind_ok, exceptBind_error]
  refine ⟨hp, ?_⟩
  simp [dispatchBuffer, hp]

/-- A modelled `ET.fromstring` that parses exactly the empty `ping` frame
(whose element text is `None`) and reports `ParseError` on anything else. -/
def fromstringPing : String → Except PyErr XmlElement :=
  fun s =>
    if s = "<ping format=\"text\"></ping>" then
      .ok ⟨"ping", [("format", "text")], none⟩
    else .error .parseError

/-- Witness for C10 on the literal empty `ping` frame. -/
theorem c10_witness :
    parse_message fromstringPing (fun _ => .error .jsonDecodeError)
        (fun _ => .error .parseError) "<ping format=\"text\"></ping>" =
        .error .attributeError ∧
      dispatchBuffer fromstringPing (fun _ => .error .jsonDecodeError)
        (fun _ => .error .parseError) ["ping"] "<ping format=\"text\"></ping>" =
        .uncaught .attributeError :=
  c10_empty_text_escapes_malformed_frame_path fromstringPing
    (fun _ => .error .jsonDecodeError) (fun _ => .error .parseError)
    ["ping"] "<ping format=\"text\"></ping>" ⟨"ping", [("format", "text")], none⟩
    (by rfl) (by rfl)
